import Mathlib

/-!
Shallow embedding of pkg/hpa/client.go of the tortoise repository, together
with theorems checking the natural-language specification against it.

Go machine integers (int32) are modelled as `Int`; the quantities involved
(replica counts, utilization percentages) stay far from the int32 bounds in
every statement below, so wrap-around is never reachable.  The float64
`replicaReductionFactor` is modelled as a rational number, and Go's
`math.Trunc` as exact truncation toward zero on rationals.
-/

namespace TortoiseHPA

/-- Equality on `Except` results is decidable when it is on both
components; used to evaluate the concrete scenarios by `decide`. -/
instance instDecEqExcept {ε α : Type} [DecidableEq ε] [DecidableEq α] :
    DecidableEq (Except ε α) := fun x y =>
  match x, y with
  | .ok a, .ok b =>
      decidable_of_iff (a = b)
        (by constructor
            · intro h; rw [h]
            · intro h; injection h)
  | .ok _, .error _ => isFalse (fun h => Except.noConfusion h)
  | .error _, .ok _ => isFalse (fun h => Except.noConfusion h)
  | .error a, .error b =>
      decidable_of_iff (a = b)
        (by constructor
            · intro h; rw [h]
            · intro h; injection h)

/-- Go `corev1.ResourceName` (a string); the code switches on cpu / memory
with a default branch for everything else. -/
inductive ResourceName
  | cpu
  | memory
  | other (s : String)
deriving DecidableEq

/-- Modelled from the spec: the per-(container, resourceKind) autoscaling
mode (`autoscalingv1alpha1.AutoscalingType`, defined outside src/): a pair is
either purely horizontally scaled or vertical-primary ("mixed").  The code
only tests `p != AutoscalingTypeHorizontal`. -/
inductive AutoscalingType
  | Horizontal
  | Vertical
deriving DecidableEq

/-- Modelled from the spec: `Phase` is the enum {Working, Emergency,
BackToNormal} (`autoscalingv1alpha1.TortoisePhase`, defined outside src/).
The code switches on Emergency and BackToNormal with a default branch. -/
inductive TortoisePhase
  | Working
  | Emergency
  | BackToNormal
deriving DecidableEq

/-- The part of a Go `time.Time` the code consults: `Weekday()` (0 = Sunday)
and `Hour()`. -/
structure Time where
  weekday : Nat
  hour : Nat
deriving DecidableEq

/-- `autoscalingv1alpha1.ReplicasRecommendation`: a time-window slot
{WeekDay, From, To, Value}. -/
structure ReplicasRecommendation where
  weekDay : Nat
  fromHour : Nat
  toHour : Nat
  value : Int
deriving DecidableEq

/-- The match condition of the loop body of `getReplicasRecommendation`:
`now.Hour() < r.To && now.Hour() >= r.From && now.Weekday() == r.WeekDay`. -/
def slotMatches (r : ReplicasRecommendation) (now : Time) : Bool :=
  decide (now.hour < r.toHour) && decide (r.fromHour ≤ now.hour) &&
    decide (now.weekday = r.weekDay)

/-- `getReplicasRecommendation`: linear scan returning the first matching
slot's value, `errors.New("no recommendation slot")` when none matches. -/
def getReplicasRecommendation :
    List ReplicasRecommendation → Time → Except String Int
  | [], _ => .error "no recommendation slot"
  | r :: rest, now =>
      if slotMatches r now then .ok r.value
      else getReplicasRecommendation rest now

/-- `v2.ContainerResourceMetricSource`: container name, resource name and the
target (`Target.AverageUtilization`, a nullable int32 pointer). -/
structure ContainerResourceMetricSource where
  container : String
  name : ResourceName
  averageUtilization : Option Int
deriving DecidableEq

/-- `v2.ExternalMetricSource`: metric identifier name and the numeric target
value (`Target.Value`, a resource.Quantity). -/
structure ExternalMetricSource where
  metricName : String
  targetValue : Int
deriving DecidableEq

/-- The `Type` discriminator of a `v2.MetricSpec`; the code tests for
ContainerResource and External, every other variant is skipped. -/
inductive MetricType
  | containerResource
  | external
  | otherType
deriving DecidableEq

/-- `v2.MetricSpec`: the `Type` tag plus nullable pointers for the two
variants the code inspects. -/
structure MetricSpec where
  type : MetricType
  containerResource : Option ContainerResourceMetricSource
  external : Option ExternalMetricSource
deriving DecidableEq

/-- Key of `annotation.HPAContainerBasedCPUExternalMetricNamePrefixAnnotation`
(the constant lives outside src/; only its identity matters). -/
def cpuPrefixKey : String :=
  "tortoise.autoscaling.mercari.com/container-based-cpu-metric-prefix"

/-- Key of
`annotation.HPAContainerBasedMemoryExternalMetricNamePrefixAnnotation`. -/
def memoryPrefixKey : String :=
  "tortoise.autoscaling.mercari.com/container-based-memory-metric-prefix"

/-- `v2.HorizontalPodAutoscaler`, restricted to the fields the code reads or
writes: metadata annotations, MinReplicas, MaxReplicas and Metrics. -/
structure HPA where
  name : String
  namespaceName : String
  annotations : List (String × String)
  minReplicas : Int
  maxReplicas : Int
  metrics : List MetricSpec
deriving DecidableEq

/-- Go map read `hpa.GetAnnotations()[key]`: the empty string when the key is
absent. -/
def getAnnotationValue (hpa : HPA) (key : String) : String :=
  (hpa.annotations.lookup key).getD ""

/-- `externalMetricNameFromAnnotation`: prefix + containerName for cpu and
memory, an error for any other resource type. -/
def externalMetricNameOf (hpa : HPA) (containerName : String)
    (k : ResourceName) : Except String String :=
  match k with
  | .cpu => .ok (getAnnotationValue hpa cpuPrefixKey ++ containerName)
  | .memory => .ok (getAnnotationValue hpa memoryPrefixKey ++ containerName)
  | .other s => .error ("non supported resource type: " ++ s)

/-- One pass of the first loop of `updateHPATargetValue`: overwrite
`Target.AverageUtilization` of a ContainerResource metric matching
(containerName, k) whose target is non-nil; skip everything else (a nil
`ContainerResource` is the logged anomaly, skipped). -/
def crUpdate (containerName : String) (k : ResourceName) (targetValue : Int)
    (m : MetricSpec) : MetricSpec :=
  if m.type ≠ .containerResource then m
  else
    match m.containerResource with
    | none => m
    | some cr =>
        if cr.container ≠ containerName ∨ cr.name ≠ k ∨
            cr.averageUtilization = none then m
        else
          let cr2 := { cr with averageUtilization := some targetValue }
          { m with containerResource := some cr2 }

/-- One pass of the second loop of `updateHPATargetValue`: overwrite
`Target.Value` of an External metric whose name equals the computed external
metric name; skip everything else (a nil `External` is the logged anomaly). -/
def extUpdate (metricName : String) (targetValue : Int)
    (m : MetricSpec) : MetricSpec :=
  if m.type ≠ .external then m
  else
    match m.external with
    | none => m
    | some e =>
        if e.metricName ≠ metricName then m
        else
          let e2 := { e with targetValue := targetValue }
          { m with external := some e2 }

/-- `updateHPATargetValue`: the Go function mutates `hpa` in place and
returns an error value, so it is modelled as returning the written-to HPA
together with `Option String`.  The ContainerResource loop runs first, then
the external metric name is computed (the only error exit), then the
External loop runs. -/
def updateHPATargetValue (hpa : HPA) (containerName : String)
    (k : ResourceName) (targetValue : Int) : HPA × Option String :=
  let hpa1 := { hpa with
                metrics := hpa.metrics.map (crUpdate containerName k targetValue) }
  match externalMetricNameOf hpa1 containerName k with
  | .error e => (hpa1, some e)
  | .ok metricName =>
      ({ hpa1 with
         metrics := hpa1.metrics.map (extUpdate metricName targetValue) }, none)

/-- `autoscalingv1alpha1.ContainerResourcePolicy` (type outside src/,
shape taken from its use at client.go lines 85-91): container name plus the
`AutoscalingPolicy` map resourceKind -> AutoscalingType, modelled as an
association list (Go map iteration order is unspecified; the list fixes
one order, which no claim depends on). -/
structure ContainerResourcePolicy where
  containerName : String
  autoscalingPolicy : List (ResourceName × AutoscalingType)
deriving DecidableEq

/-- One container's entry of
`tortoise.Status.Recommendations.Horizontal.TargetUtilizations`: the
container name and the resource-to-utilization map (again an association
list in place of a Go map). -/
structure TargetUtilizationPerContainer where
  containerName : String
  targetUtilization : List (ResourceName × Int)
deriving DecidableEq

/-- The `Tortoise` custom resource, restricted to the fields client.go reads
or writes: target identity (`Spec.TargetRefs`), `Spec.ResourcePolicy`,
`Status.TortoisePhase` and `Status.Recommendations.Horizontal`. -/
structure Tortoise where
  namespaceName : String
  deploymentName : String
  hpaName : String
  resourcePolicy : List ContainerResourcePolicy
  phase : TortoisePhase
  targetUtilizations : List TargetUtilizationPerContainer
  maxReplicasRecs : List ReplicasRecommendation
  minReplicasRecs : List ReplicasRecommendation
deriving DecidableEq

/-- The `Client` configuration: `replicaReductionFactor` (a float64 in Go,
modelled as a rational) and `upperTargetResourceUtilization`. -/
structure Client where
  replicaReductionFactor : Rat
  upperTargetResourceUtilization : Int
deriving DecidableEq

/-- Go `math.Trunc` on an exact rational: truncation toward zero. -/
def truncTowardZero (q : Rat) : Int :=
  if 0 ≤ q then ⌊q⌋ else ⌈q⌉

/-- The inner loop of lines 135-141: apply `updateHPATargetValue` for each
(resourceKind, recommendation) entry of one container; any error aborts with
the constant message of line 138. -/
def applyContainerUtil (hpa : HPA) (containerName : String) :
    List (ResourceName × Int) → Except String HPA
  | [] => .ok hpa
  | (k, r) :: rest =>
      match updateHPATargetValue hpa containerName k r with
      | (_, some _) => .error "update HPA from the recommendation from tortoise"
      | (hpa2, none) => applyContainerUtil hpa2 containerName rest

/-- The outer loop of lines 135-141 over all containers. -/
def applyTargetUtilizations (hpa : HPA) :
    List TargetUtilizationPerContainer → Except String HPA
  | [] => .ok hpa
  | t :: ts =>
      match applyContainerUtil hpa t.containerName t.targetUtilization with
      | .error e => .error e
      | .ok hpa2 => applyTargetUtilizations hpa2 ts

/-- `UpdateHPAFromTortoiseRecommendation`, lines 129-177, modelled as a pure
function of the fetched HPA (`stored`): metric rewrites, then the
maxReplicas lookup, then the phase switch computing minReplicas, returning
the HPA to be persisted together with the (possibly phase-updated)
tortoise.  Every error path returns before anything is persisted. -/
def updateHPAFromTortoiseRecommendation (cl : Client) (stored : HPA)
    (t : Tortoise) (now : Time) : Except String (HPA × Tortoise) :=
  match applyTargetUtilizations stored t.targetUtilizations with
  | .error e => .error e
  | .ok hpa0 =>
      match getReplicasRecommendation t.maxReplicasRecs now with
      | .error e => .error ("get maxReplicas recommendation: " ++ e)
      | .ok mx =>
          let hpa1 := { hpa0 with maxReplicas := mx }
          match t.phase with
          | .Emergency => .ok ({ hpa1 with minReplicas := mx }, t)
          | .BackToNormal =>
              match getReplicasRecommendation t.minReplicasRecs now with
              | .error e => .error ("get minReplicas recommendation: " ++ e)
              | .ok idealMin =>
                  let currentMin := hpa1.minReplicas
                  let reduced := truncTowardZero
                    ((currentMin : Rat) * cl.replicaReductionFactor)
                  if idealMin > reduced then
                    .ok ({ hpa1 with minReplicas := idealMin },
                         { t with phase := .Working })
                  else
                    .ok ({ hpa1 with minReplicas := reduced }, t)
          | .Working =>
              match getReplicasRecommendation t.minReplicasRecs now with
              | .error e => .error ("get minReplicas recommendation: " ++ e)
              | .ok mn => .ok ({ hpa1 with minReplicas := mn }, t)

/-- The persistence effect of one `UpdateHPAFromTortoiseRecommendation`
call: `c.c.Update(ctx, hpa)` (line 176) runs only on the success path, so
the stored HPA is replaced exactly when the call succeeds and is untouched
on every error return. -/
def reconcileUpdate (cl : Client) (stored : HPA) (t : Tortoise)
    (now : Time) : HPA × Except String Tortoise :=
  match updateHPAFromTortoiseRecommendation cl stored t now with
  | .ok (h, t2) => (h, .ok t2)
  | .error e => (stored, .error e)

/-- The inner metric-building loop of `CreateHPAOnTortoise` (lines 86-107)
for one container: an ExternalMetric per (resourceKind, policy) entry, with
target value 50, replaced by 90 whenever the policy is not Horizontal; the
name comes from `externalMetricNameFromAnnotation` on the HPA being built,
whose error aborts the whole creation. -/
def buildContainerMetrics (hpa : HPA) (containerName : String) :
    List (ResourceName × AutoscalingType) → Except String (List MetricSpec)
  | [] => .ok []
  | (r, p) :: rest =>
      let value : Int := if p = .Horizontal then 50 else 90
      match externalMetricNameOf hpa containerName r with
      | .error e => .error e
      | .ok metricName =>
          match buildContainerMetrics hpa containerName rest with
          | .error e => .error e
          | .ok ms =>
              .ok ({ type := .external,
                     containerResource := none,
                     external := some { metricName := metricName,
                                        targetValue := value } } :: ms)

/-- The outer metric-building loop of `CreateHPAOnTortoise` (lines 84-108)
over `tortoise.Spec.ResourcePolicy`. -/
def buildAllMetrics (hpa : HPA) :
    List ContainerResourcePolicy → Except String (List MetricSpec)
  | [] => .ok []
  | c :: cs =>
      match buildContainerMetrics hpa c.containerName c.autoscalingPolicy with
      | .error e => .error e
      | .ok m1 =>
          match buildAllMetrics hpa cs with
          | .error e => .error e
          | .ok m2 => .ok (m1 ++ m2)

/-- The HPA skeleton built by `CreateHPAOnTortoise` (lines 44-82): name,
namespace, the two naming-prefix annotations derived from the workload
identity, minReplicas = ceil(statusReplicas / 2), maxReplicas =
statusReplicas * 2 (the behavior rules carry no claim and are omitted). -/
def initialHPA (t : Tortoise) (statusReplicas : Int) : HPA :=
  { name := t.hpaName
    namespaceName := t.namespaceName
    annotations :=
      [(memoryPrefixKey,
        "datadogmetric@" ++ t.namespaceName ++ ":" ++ t.deploymentName ++
          "-memory-"),
       (cpuPrefixKey,
        "datadogmetric@" ++ t.namespaceName ++ ":" ++ t.deploymentName ++
          "-cpu-")]
    minReplicas := ⌈(statusReplicas : Rat) / 2⌉
    maxReplicas := statusReplicas * 2
    metrics := [] }

/-- `CreateHPAOnTortoise`, restricted to the pure construction of the HPA
object (lines 42-109): build the skeleton, then the metric list; a naming
error aborts.  The Create store call and AlreadyExists adoption carry no
claim here. -/
def createHPAOnTortoise (t : Tortoise) (statusReplicas : Int) :
    Except String HPA :=
  let hpa := initialHPA t statusReplicas
  match buildAllMetrics hpa t.resourcePolicy with
  | .error e => .error e
  | .ok m => .ok { hpa with metrics := m }

/-- The bootstrapped external-metric name prefix for a supported resource
kind, as written by `initialHPA` (empty for unsupported kinds, which
`createHPAOnTortoise` rejects). -/
def bootstrappedPrefixOf (t : Tortoise) : ResourceName → String
  | .cpu => "datadogmetric@" ++ t.namespaceName ++ ":" ++ t.deploymentName ++
      "-cpu-"
  | .memory => "datadogmetric@" ++ t.namespaceName ++ ":" ++
      t.deploymentName ++ "-memory-"
  | .other _ => ""

/-- The minReplicas/phase computation of the BackToNormal branch
(lines 155-167) in isolation: the geometric-decay step of the planner. -/
def backToNormalMinPlan (f : Rat) (idealMin currentMin : Int) :
    Int × TortoisePhase :=
  let reduced := truncTowardZero ((currentMin : Rat) * f)
  if idealMin > reduced then (idealMin, .Working)
  else (reduced, .BackToNormal)

/-- The minReplicas/phase computation of the whole phase switch
(lines 149-173), given the two looked-up recommendations. -/
def minPlanStep (f : Rat) (idealMin maxRec : Int) :
    Int × TortoisePhase → Int × TortoisePhase
  | (_, .Emergency) => (maxRec, .Emergency)
  | (c, .BackToNormal) => backToNormalMinPlan f idealMin c
  | (_, .Working) => (idealMin, .Working)

/-- Iteration of `minPlanStep`: each reconciliation pass feeds the produced
minReplicas and phase back in as the next pass's live minReplicas and
phase (the time-window lookups held fixed). -/
def minPlanIter (f : Rat) (idealMin maxRec : Int)
    (s : Int × TortoisePhase) : Nat → Int × TortoisePhase
  | 0 => s
  | n + 1 => minPlanStep f idealMin maxRec (minPlanIter f idealMin maxRec s n)

/-- Shorthand for the ExternalMetric MetricSpec shape emitted at bootstrap
and inspected by the rewrite. -/
def externalMetricSpec (metricName : String) (targetValue : Int) : MetricSpec :=
  { type := .external
    containerResource := none
    external := some { metricName := metricName, targetValue := targetValue } }

/-- Shorthand for a ContainerResource MetricSpec with a utilization target. -/
def containerMetricSpec (containerName : String) (k : ResourceName)
    (utilization : Int) : MetricSpec :=
  { type := .containerResource
    containerResource := some { container := containerName, name := k,
                                averageUtilization := some utilization }
    external := none }

/-- Test whether a MetricSpec is a ContainerResource metric for the given
container and resource kind. -/
def isCRFor (m : MetricSpec) (containerName : String) (k : ResourceName) :
    Bool :=
  m.type == .containerResource &&
    match m.containerResource with
    | some cr => cr.container == containerName && cr.name == k
    | none => false

/-- Test whether a MetricSpec is an External metric with the given name. -/
def isExtNamed (m : MetricSpec) (metricName : String) : Bool :=
  m.type == .external &&
    match m.external with
    | some e => e.metricName == metricName
    | none => false

/-- An HPA with its replica bounds replaced; display shorthand for the
results of the planner. -/
def withBounds (h : HPA) (mn mxv : Int) : HPA :=
  { h with minReplicas := mn, maxReplicas := mxv }

/-- A tortoise with its phase replaced. -/
def withPhase (t : Tortoise) (p : TortoisePhase) : Tortoise :=
  { t with phase := p }

/-- Concrete time-window slots of the spec scenario for the lookup:
[{Mon,0,12,val=3},{Mon,12,24,val=5}] with Monday = 1. -/
def scenarioSlots : List ReplicasRecommendation :=
  [{ weekDay := 1, fromHour := 0, toHour := 12, value := 3 },
   { weekDay := 1, fromHour := 12, toHour := 24, value := 5 }]

/-- Monday 14:00. -/
def scenarioMonday : Time := { weekday := 1, hour := 14 }

/-- Tuesday 14:00. -/
def scenarioTuesday : Time := { weekday := 2, hour := 14 }

/-- A fetched HPA with live minReplicas 10 and no metrics, for the
BackToNormal decay scenarios. -/
def scenarioHPA : HPA :=
  { name := "h", namespaceName := "ns", annotations := [],
    minReplicas := 10, maxReplicas := 20, metrics := [] }

/-- A tortoise in BackToNormal phase whose time windows recommend max 20 and
min 6 at every Monday hour. -/
def scenarioTortoiseBTN : Tortoise :=
  { namespaceName := "ns", deploymentName := "d", hpaName := "h",
    resourcePolicy := [], phase := .BackToNormal, targetUtilizations := [],
    maxReplicasRecs :=
      [{ weekDay := 1, fromHour := 0, toHour := 24, value := 20 }],
    minReplicasRecs :=
      [{ weekDay := 1, fromHour := 0, toHour := 24, value := 6 }] }

/-- The same tortoise in Emergency phase. -/
def scenarioTortoiseEmergency : Tortoise :=
  { scenarioTortoiseBTN with phase := .Emergency }

/-- A tortoise with no minReplicas slot at all (its lookup always fails)
but a usable maxReplicas slot. -/
def scenarioTortoiseNoMinSlot : Tortoise :=
  { scenarioTortoiseBTN with phase := .Working, minReplicasRecs := [] }

/-- A tortoise with no maxReplicas slot at all (its lookup always fails). -/
def scenarioTortoiseNoMaxSlot : Tortoise :=
  { scenarioTortoiseBTN with phase := .Working, maxReplicasRecs := [] }

/-- An HPA carrying no annotations at all: both naming-prefix annotations
are absent. -/
def noAnnHPA : HPA :=
  { name := "h", namespaceName := "ns", annotations := [],
    minReplicas := 1, maxReplicas := 2, metrics := [] }

/-- An HPA with distinct bootstrapped-style naming prefixes and one metric
of each shape the frame claim mentions, plus the two entries the rewrite
for (api, cpu) is allowed to touch. -/
def frameHPA : HPA :=
  { name := "h", namespaceName := "ns",
    annotations := [(cpuPrefixKey, "c-"), (memoryPrefixKey, "mem-")],
    minReplicas := 1, maxReplicas := 2,
    metrics := [containerMetricSpec "worker" .cpu 40,
                containerMetricSpec "api" .memory 41,
                externalMetricSpec ("c-" ++ "worker") 42,
                externalMetricSpec ("mem-" ++ "api") 43,
                containerMetricSpec "api" .cpu 44,
                externalMetricSpec ("c-" ++ "api") 45] }

/-- A tortoise whose resource policy has one container with a horizontal
cpu pair and a vertical memory pair, for the bootstrap claim. -/
def bootstrapTortoise : Tortoise :=
  { namespaceName := "ns", deploymentName := "d", hpaName := "h",
    resourcePolicy :=
      [{ containerName := "api",
         autoscalingPolicy := [(.cpu, .Horizontal), (.memory, .Vertical)] }],
    phase := .Working, targetUtilizations := [],
    maxReplicasRecs := [], minReplicasRecs := [] }

/-- The HPA `createHPAOnTortoise bootstrapTortoise 7` builds: minReplicas =
ceil(7/2) = 4, maxReplicas = 14, one external metric per policy pair. -/
def bootstrapHPA : HPA :=
  { initialHPA bootstrapTortoise 7 with
    minReplicas := 4, maxReplicas := 14,
    metrics := [externalMetricSpec "datadogmetric@ns:d-cpu-api" 50,
                externalMetricSpec "datadogmetric@ns:d-memory-api" 90] }

/-! Helper lemmas shared by the claim theorems. -/

/-- The rewrite never changes the annotations of the HPA. -/
theorem updateHPATargetValue_annotations (hpa : HPA) (cn : String)
    (k : ResourceName) (tv : Int) :
    ((updateHPATargetValue hpa cn k tv).1).annotations = hpa.annotations := by
  cases k <;> simp [updateHPATargetValue, externalMetricNameOf]

/-- The rewrite never changes minReplicas. -/
theorem updateHPATargetValue_minReplicas (hpa : HPA) (cn : String)
    (k : ResourceName) (tv : Int) :
    ((updateHPATargetValue hpa cn k tv).1).minReplicas = hpa.minReplicas := by
  cases k <;> simp [updateHPATargetValue, externalMetricNameOf]

/-- The rewrite never changes maxReplicas. -/
theorem updateHPATargetValue_maxReplicas (hpa : HPA) (cn : String)
    (k : ResourceName) (tv : Int) :
    ((updateHPATargetValue hpa cn k tv).1).maxReplicas = hpa.maxReplicas := by
  cases k <;> simp [updateHPATargetValue, externalMetricNameOf]

/-- The per-container rewrite loop preserves replica bounds and
annotations on its success path. -/
theorem applyContainerUtil_ok (cn : String) :
    ∀ (l : List (ResourceName × Int)) (hpa h2 : HPA),
      applyContainerUtil hpa cn l = .ok h2 →
      h2.minReplicas = hpa.minReplicas ∧ h2.maxReplicas = hpa.maxReplicas ∧
        h2.annotations = hpa.annotations := by
  intro l
  induction l with
  | nil =>
      intro hpa h2 h
      simp only [applyContainerUtil, Except.ok.injEq] at h
      simp [h]
  | cons kr rest ih =>
      intro hpa h2 h
      obtain ⟨k, r⟩ := kr
      simp only [applyContainerUtil] at h
      rcases hu : updateHPATargetValue hpa cn k r with ⟨hpa2, e⟩
      rw [hu] at h
      cases e with
      | some s => simp at h
      | none =>
          obtain ⟨a, b, c⟩ := ih hpa2 h2 h
          have h1 := updateHPATargetValue_minReplicas hpa cn k r
          have h2m := updateHPATargetValue_maxReplicas hpa cn k r
          have h3 := updateHPATargetValue_annotations hpa cn k r
          rw [hu] at h1 h2m h3
          exact ⟨a.trans h1, b.trans h2m, c.trans h3⟩

/-- The whole rewrite phase preserves replica bounds and annotations on its
success path. -/
theorem applyTargetUtilizations_ok :
    ∀ (ts : List TargetUtilizationPerContainer) (hpa h2 : HPA),
      applyTargetUtilizations hpa ts = .ok h2 →
      h2.minReplicas = hpa.minReplicas ∧ h2.maxReplicas = hpa.maxReplicas ∧
        h2.annotations = hpa.annotations := by
  intro ts
  induction ts with
  | nil =>
      intro hpa h2 h
      simp only [applyTargetUtilizations, Except.ok.injEq] at h
      simp [h]
  | cons t rest ih =>
      intro hpa h2 h
      simp only [applyTargetUtilizations] at h
      rcases hu : applyContainerUtil hpa t.containerName t.targetUtilization
        with e | hpa2
      · rw [hu] at h; simp at h
      · rw [hu] at h
        obtain ⟨a, b, c⟩ := ih hpa2 h2 h
        obtain ⟨a2, b2, c2⟩ := applyContainerUtil_ok t.containerName
          t.targetUtilization hpa hpa2 hu
        exact ⟨a.trans a2, b.trans b2, c.trans c2⟩

/-! Claim theorems. -/

/-- C6: for every list of time-window slots and every timestamp, the lookup
returns the value of the first slot in list order whose weekday equals the
timestamp's weekday and whose [fromHour, toHour) interval contains the
timestamp's hour, and returns the NotFound error when no slot matches; in
particular the slots [{Mon,0,12,3},{Mon,12,24,5}] give 5 at Monday 14:00
and NotFound at Tuesday 14:00. -/
theorem claim_C6 :
    (∀ (r : ReplicasRecommendation) (now : Time),
      slotMatches r now = true ↔
        (now.weekday = r.weekDay ∧ r.fromHour ≤ now.hour ∧
          now.hour < r.toHour))
    ∧ (∀ (pre : List ReplicasRecommendation) (r : ReplicasRecommendation)
        (post : List ReplicasRecommendation) (now : Time),
        (∀ x ∈ pre, slotMatches x now = false) → slotMatches r now = true →
        getReplicasRecommendation (pre ++ r :: post) now = .ok r.value)
    ∧ (∀ (slots : List ReplicasRecommendation) (now : Time),
        (∀ r ∈ slots, slotMatches r now = false) →
        getReplicasRecommendation slots now = .error "no recommendation slot")
    ∧ getReplicasRecommendation scenarioSlots scenarioMonday = .ok 5
    ∧ getReplicasRecommendation scenarioSlots scenarioTuesday =
        .error "no recommendation slot" := by
  refine ⟨?_, ?_, ?_, by decide, by decide⟩
  · intro r now
    simp only [slotMatches, Bool.and_eq_true, decide_eq_true_eq]
    constructor
    · rintro ⟨⟨h1, h2⟩, h3⟩; exact ⟨h3, h2, h1⟩
    · rintro ⟨h3, h2, h1⟩; exact ⟨⟨h1, h2⟩, h3⟩
  · intro pre r post now hpre hr
    induction pre with
    | nil => simp [getReplicasRecommendation, hr]
    | cons x rest ih =>
        have hx : slotMatches x now = false := hpre x (by simp)
        simp only [List.cons_append, getReplicasRecommendation, hx,
          Bool.false_eq_true, if_false]
        exact ih (fun y hy => hpre y (by simp [hy]))
  · intro slots now hall
    induction slots with
    | nil => simp [getReplicasRecommendation]
    | cons x rest ih =>
        have hx : slotMatches x now = false := hall x (by simp)
        simp only [getReplicasRecommendation, hx, Bool.false_eq_true,
          if_false]
        exact ih (fun y hy => hall y (by simp [hy]))

/-- C6 witness: the first-match part of claim_C6 applied at the Monday
scenario, with the second slot as the first match. -/
theorem claim_C6_witness :
    getReplicasRecommendation
      ([{ weekDay := 1, fromHour := 0, toHour := 12, value := 3 }] ++
        { weekDay := 1, fromHour := 12, toHour := 24, value := 5 } :: [])
      scenarioMonday = .ok 5 :=
  claim_C6.2.1 [{ weekDay := 1, fromHour := 0, toHour := 12, value := 3 }]
    { weekDay := 1, fromHour := 12, toHour := 24, value := 5 } []
    scenarioMonday (by decide) (by decide)

/-- C3 counterexample: on an HPA with no annotations at all, the
naming-prefix annotation for cpu is absent, yet computing the external
metric name for (api, cpu) succeeds with the bare container name and the
rewrite reports no error — the claim that an absent prefix annotation
fails the rewrite is false. -/
theorem claim_C3_counterexample :
    noAnnHPA.annotations.lookup cpuPrefixKey = none ∧
    externalMetricNameOf noAnnHPA "api" .cpu = .ok "api" ∧
    (updateHPATargetValue noAnnHPA "api" .cpu 50).2 = none := by
  refine ⟨rfl, by decide, by decide⟩

/-- C3 (amended): computing the external metric name fails with a naming
error exactly when the requested resource kind is neither cpu nor memory,
and that error is surfaced to the rewrite's caller; when the naming-prefix
annotation for a supported kind is absent, the lookup silently yields the
empty prefix (the name is the bare container name) and no error occurs. -/
theorem claim_C3 (hpa : HPA) (cn : String) (k : ResourceName) (tv : Int) :
    (∀ s, k = .other s →
      externalMetricNameOf hpa cn k =
        .error ("non supported resource type: " ++ s) ∧
      (updateHPATargetValue hpa cn k tv).2 =
        some ("non supported resource type: " ++ s))
    ∧ (k = .cpu ∨ k = .memory →
      ∃ nm, externalMetricNameOf hpa cn k = .ok nm ∧
        (updateHPATargetValue hpa cn k tv).2 = none)
    ∧ (k = .cpu → hpa.annotations.lookup cpuPrefixKey = none →
      externalMetricNameOf hpa cn k = .ok cn)
    ∧ (k = .memory → hpa.annotations.lookup memoryPrefixKey = none →
      externalMetricNameOf hpa cn k = .ok cn) := by
  refine ⟨?_, ?_, ?_, ?_⟩
  · intro s hk
    subst hk
    constructor
    · simp [externalMetricNameOf]
    · simp [updateHPATargetValue, externalMetricNameOf]
  · rintro (hk | hk) <;> subst hk
    · exact ⟨_, rfl, by simp [updateHPATargetValue, externalMetricNameOf]⟩
    · exact ⟨_, rfl, by simp [updateHPATargetValue, externalMetricNameOf]⟩
  · intro hk hnone
    subst hk
    simp [externalMetricNameOf, getAnnotationValue, hnone]
  · intro hk hnone
    subst hk
    simp [externalMetricNameOf, getAnnotationValue, hnone]

/-- C3 witness: the amended claim applied at a concrete unsupported
resource kind, where the naming error is raised and surfaced. -/
theorem claim_C3_witness :
    externalMetricNameOf noAnnHPA "api" (.other "storage") =
      .error ("non supported resource type: " ++ "storage") ∧
    (updateHPATargetValue noAnnHPA "api" (.other "storage") 50).2 =
      some ("non supported resource type: " ++ "storage") :=
  (claim_C3 noAnnHPA "api" (.other "storage") 50).1 "storage" rfl

/-- C5: in Emergency phase, when the maxReplicas lookup succeeds (and the
metric rewrites did not abort), the resulting HPA pins minReplicas =
maxReplicas = the looked-up maximum, regardless of the prior minReplicas,
and the tortoise — in particular its phase — is returned unchanged. -/
theorem claim_C5 (cl : Client) (stored : HPA) (t : Tortoise) (now : Time)
    (hpa0 : HPA) (mx : Int)
    (hph : t.phase = .Emergency)
    (happly : applyTargetUtilizations stored t.targetUtilizations = .ok hpa0)
    (hmax : getReplicasRecommendation t.maxReplicasRecs now = .ok mx) :
    ∃ h : HPA,
      updateHPAFromTortoiseRecommendation cl stored t now = .ok (h, t) ∧
      h.minReplicas = mx ∧ h.maxReplicas = mx := by
  refine ⟨{ hpa0 with maxReplicas := mx, minReplicas := mx }, ?_, rfl, rfl⟩
  simp only [updateHPAFromTortoiseRecommendation, happly, hmax, hph]

/-- C5 witness: the Emergency theorem at the concrete scenario tortoise and
HPA: min and max both become 20 although the stored minReplicas was 10. -/
theorem claim_C5_witness :
    ∃ h : HPA,
      updateHPAFromTortoiseRecommendation ⟨1/2, 90⟩ scenarioHPA
        scenarioTortoiseEmergency scenarioMonday =
        .ok (h, scenarioTortoiseEmergency) ∧
      h.minReplicas = 20 ∧ h.maxReplicas = 20 :=
  claim_C5 ⟨1/2, 90⟩ scenarioHPA scenarioTortoiseEmergency scenarioMonday
    scenarioHPA 20 rfl rfl (by decide)

/-- C10: Emergency never consults the minReplicas recommendation list:
with successful rewrites and maxReplicas lookup but a failing minReplicas
lookup, the call succeeds in Emergency phase and fails in Working and in
BackToNormal phase. -/
theorem claim_C10 (cl : Client) (stored : HPA) (t : Tortoise) (now : Time)
    (hpa0 : HPA) (mx : Int) (e : String)
    (happly : applyTargetUtilizations stored t.targetUtilizations = .ok hpa0)
    (hmax : getReplicasRecommendation t.maxReplicasRecs now = .ok mx)
    (hmin : getReplicasRecommendation t.minReplicasRecs now = .error e) :
    (∃ r, updateHPAFromTortoiseRecommendation cl stored
        { t with phase := .Emergency } now = .ok r)
    ∧ (∃ msg, updateHPAFromTortoiseRecommendation cl stored
        { t with phase := .Working } now = .error msg)
    ∧ (∃ msg, updateHPAFromTortoiseRecommendation cl stored
        { t with phase := .BackToNormal } now = .error msg) := by
  refine ⟨⟨({ hpa0 with maxReplicas := mx, minReplicas := mx },
            { t with phase := .Emergency }), ?_⟩,
          ⟨"get minReplicas recommendation: " ++ e, ?_⟩,
          ⟨"get minReplicas recommendation: " ++ e, ?_⟩⟩ <;>
    simp only [updateHPAFromTortoiseRecommendation, happly, hmax, hmin]

/-- C10 witness: the same tortoise with an empty minReplicas slot list
succeeds in Emergency phase and fails in the two other phases. -/
theorem claim_C10_witness :
    (∃ r, updateHPAFromTortoiseRecommendation ⟨1/2, 90⟩ scenarioHPA
      { scenarioTortoiseNoMinSlot with phase := .Emergency }
      scenarioMonday = .ok r)
    ∧ (∃ msg, updateHPAFromTortoiseRecommendation ⟨1/2, 90⟩ scenarioHPA
      { scenarioTortoiseNoMinSlot with phase := .Working }
      scenarioMonday = .error msg)
    ∧ (∃ msg, updateHPAFromTortoiseRecommendation ⟨1/2, 90⟩ scenarioHPA
      { scenarioTortoiseNoMinSlot with phase := .BackToNormal }
      scenarioMonday = .error msg) :=
  claim_C10 ⟨1/2, 90⟩ scenarioHPA scenarioTortoiseNoMinSlot scenarioMonday
    scenarioHPA 20 "no recommendation slot" rfl (by decide) rfl

/-- C4: whenever a time-window lookup fails — the maxReplicas lookup, or
the minReplicas lookup in a non-Emergency phase — the call returns an
error and the persisted HPA is left exactly as it was: the store update
step never runs. -/
theorem claim_C4 (cl : Client) (stored : HPA) (t : Tortoise) (now : Time)
    (h : (∃ e, getReplicasRecommendation t.maxReplicasRecs now = .error e) ∨
      (t.phase ≠ .Emergency ∧
        ∃ e, getReplicasRecommendation t.minReplicasRecs now = .error e)) :
    (reconcileUpdate cl stored t now).1 = stored ∧
    ∃ msg, (reconcileUpdate cl stored t now).2 = .error msg := by
  have herr : ∃ msg,
      updateHPAFromTortoiseRecommendation cl stored t now = .error msg := by
    rcases happly : applyTargetUtilizations stored t.targetUtilizations
      with e0 | hpa0
    · exact ⟨e0, by simp only [updateHPAFromTortoiseRecommendation, happly]⟩
    · rcases h with ⟨e, hmaxe⟩ | ⟨hph, e, hmine⟩
      · exact ⟨"get maxReplicas recommendation: " ++ e, by
          simp only [updateHPAFromTortoiseRecommendation, happly, hmaxe]⟩
      · rcases hmax : getReplicasRecommendation t.maxReplicasRecs now
          with e2 | mx
        · exact ⟨"get maxReplicas recommendation: " ++ e2, by
            simp only [updateHPAFromTortoiseRecommendation, happly, hmax]⟩
        · cases hph2 : t.phase with
          | Emergency => exact absurd hph2 hph
          | Working =>
              exact ⟨"get minReplicas recommendation: " ++ e, by
                simp only [updateHPAFromTortoiseRecommendation, happly,
                  hmax, hph2, hmine]⟩
          | BackToNormal =>
              exact ⟨"get minReplicas recommendation: " ++ e, by
                simp only [updateHPAFromTortoiseRecommendation, happly,
                  hmax, hph2, hmine]⟩
  obtain ⟨msg, hmsg⟩ := herr
  exact ⟨by simp [reconcileUpdate, hmsg], msg,
    by simp [reconcileUpdate, hmsg]⟩

/-- C4 witness: a tortoise with no maxReplicas slot: the reconciliation
errors and the stored HPA is returned untouched. -/
theorem claim_C4_witness :
    (reconcileUpdate ⟨1/2, 90⟩ scenarioHPA scenarioTortoiseNoMaxSlot
      scenarioMonday).1 = scenarioHPA ∧
    ∃ msg, (reconcileUpdate ⟨1/2, 90⟩ scenarioHPA scenarioTortoiseNoMaxSlot
      scenarioMonday).2 = .error msg :=
  claim_C4 ⟨1/2, 90⟩ scenarioHPA scenarioTortoiseNoMaxSlot scenarioMonday
    (Or.inl ⟨"no recommendation slot", rfl⟩)

/-- C1: in BackToNormal phase with both lookups succeeding, the planner
computes reducedMin as the floor of the live minReplicas of the fetched
resource times the reduction factor; when idealMin > reducedMin the new
minReplicas is idealMin and the phase becomes Working, otherwise the new
minReplicas is reducedMin and the phase stays BackToNormal; in particular
currentMin=10, factor=1/2, idealMin=6 gives min=6 and Working, and
currentMin=10, factor=9/10, idealMin=6 gives min=9 and BackToNormal. -/
theorem claim_C1 :
    (∀ (cl : Client) (stored : HPA) (t : Tortoise) (now : Time)
        (hpa0 : HPA) (mx idealMin : Int),
      t.phase = .BackToNormal →
      0 ≤ stored.minReplicas → 0 ≤ cl.replicaReductionFactor →
      applyTargetUtilizations stored t.targetUtilizations = .ok hpa0 →
      getReplicasRecommendation t.maxReplicasRecs now = .ok mx →
      getReplicasRecommendation t.minReplicasRecs now = .ok idealMin →
      updateHPAFromTortoiseRecommendation cl stored t now =
        (if idealMin >
            ⌊(stored.minReplicas : Rat) * cl.replicaReductionFactor⌋ then
          .ok (withBounds hpa0 idealMin mx, withPhase t .Working)
        else
          .ok (withBounds hpa0
            ⌊(stored.minReplicas : Rat) * cl.replicaReductionFactor⌋ mx,
            t)))
    ∧ updateHPAFromTortoiseRecommendation ⟨1/2, 90⟩ scenarioHPA
        scenarioTortoiseBTN scenarioMonday =
        .ok ({ scenarioHPA with minReplicas := 6, maxReplicas := 20 },
             { scenarioTortoiseBTN with phase := .Working })
    ∧ updateHPAFromTortoiseRecommendation ⟨9/10, 90⟩ scenarioHPA
        scenarioTortoiseBTN scenarioMonday =
        .ok ({ scenarioHPA with minReplicas := 9, maxReplicas := 20 },
             scenarioTortoiseBTN) := by
  refine ⟨?_, ?_, ?_⟩
  · intro cl stored t now hpa0 mx idealMin hph hc hf happly hmax hmin
    have hmin0 : hpa0.minReplicas = stored.minReplicas :=
      (applyTargetUtilizations_ok t.targetUtilizations stored hpa0 happly).1
    have htr : truncTowardZero
        ((hpa0.minReplicas : Rat) * cl.replicaReductionFactor) =
        ⌊(stored.minReplicas : Rat) * cl.replicaReductionFactor⌋ := by
      rw [hmin0, truncTowardZero, if_pos]
      exact mul_nonneg (by exact_mod_cast hc) hf
    simp only [updateHPAFromTortoiseRecommendation, happly, hmax, hph,
      hmin, htr, withBounds, withPhase]
  · simp only [updateHPAFromTortoiseRecommendation, scenarioHPA,
      scenarioTortoiseBTN, scenarioMonday, applyTargetUtilizations,
      getReplicasRecommendation, slotMatches]
    norm_num [truncTowardZero]
  · simp only [updateHPAFromTortoiseRecommendation, scenarioHPA,
      scenarioTortoiseBTN, scenarioMonday, applyTargetUtilizations,
      getReplicasRecommendation, slotMatches]
    norm_num [truncTowardZero]

/-- C1 witness: the general BackToNormal statement applied at the
currentMin=10, factor=1/2, idealMin=6 scenario. -/
theorem claim_C1_witness :
    updateHPAFromTortoiseRecommendation ⟨1/2, 90⟩ scenarioHPA
      scenarioTortoiseBTN scenarioMonday =
      (if (6 : Int) > ⌊(scenarioHPA.minReplicas : Rat) * (1/2 : Rat)⌋ then
        .ok (withBounds scenarioHPA 6 20,
             withPhase scenarioTortoiseBTN .Working)
      else
        .ok (withBounds scenarioHPA
          ⌊(scenarioHPA.minReplicas : Rat) * (1/2 : Rat)⌋ 20,
          scenarioTortoiseBTN)) :=
  claim_C1.1 ⟨1/2, 90⟩ scenarioHPA scenarioTortoiseBTN scenarioMonday
    scenarioHPA 20 6 rfl (by decide) (by norm_num) rfl (by decide)
    (by decide)

/-- The external-metric name only depends on the HPA's annotations. -/
theorem externalMetricNameOf_congr (hpa hpa2 : HPA) (cn : String)
    (k : ResourceName) (h : hpa.annotations = hpa2.annotations) :
    externalMetricNameOf hpa cn k = externalMetricNameOf hpa2 cn k := by
  cases k <;> simp [externalMetricNameOf, getAnnotationValue, h]

/-- Unfolded form of the rewrite, with the metric name computed on the
original HPA (the first loop does not touch annotations). -/
theorem updateHPATargetValue_eq (hpa : HPA) (cn : String) (k : ResourceName)
    (tv : Int) :
    updateHPATargetValue hpa cn k tv =
      match externalMetricNameOf hpa cn k with
      | .error e =>
          ({ hpa with metrics := hpa.metrics.map (crUpdate cn k tv) }, some e)
      | .ok nm =>
          ({ hpa with metrics :=
              (hpa.metrics.map (crUpdate cn k tv)).map (extUpdate nm tv) },
            none) := by
  simp only [updateHPATargetValue]
  rw [externalMetricNameOf_congr
    { hpa with metrics := hpa.metrics.map (crUpdate cn k tv) } hpa cn k rfl]

/-- The ContainerResource pass preserves the metric type tag. -/
theorem crUpdate_type (cn : String) (k : ResourceName) (tv : Int)
    (m : MetricSpec) : (crUpdate cn k tv m).type = m.type := by
  obtain ⟨ty, crOpt, ext⟩ := m
  cases crOpt <;> simp only [crUpdate] <;> split_ifs <;> rfl

/-- The External pass preserves the metric type tag. -/
theorem extUpdate_type (nm : String) (tv : Int) (m : MetricSpec) :
    (extUpdate nm tv m).type = m.type := by
  obtain ⟨ty, crOpt, ext⟩ := m
  cases ext <;> simp only [extUpdate] <;> split_ifs <;> rfl

/-- The ContainerResource pass skips metrics of any other type. -/
theorem crUpdate_of_not_cr (cn : String) (k : ResourceName) (tv : Int)
    (m : MetricSpec) (h : m.type ≠ .containerResource) :
    crUpdate cn k tv m = m := by
  simp [crUpdate, h]

/-- The External pass skips metrics of any other type. -/
theorem extUpdate_of_not_ext (nm : String) (tv : Int) (m : MetricSpec)
    (h : m.type ≠ .external) : extUpdate nm tv m = m := by
  simp [extUpdate, h]

/-- The ContainerResource pass is idempotent on each metric. -/
theorem crUpdate_idem (cn : String) (k : ResourceName) (tv : Int)
    (m : MetricSpec) :
    crUpdate cn k tv (crUpdate cn k tv m) = crUpdate cn k tv m := by
  obtain ⟨ty, crOpt, ext⟩ := m
  by_cases hty : ty = .containerResource
  · subst hty
    cases crOpt with
    | none => simp [crUpdate]
    | some cr =>
        obtain ⟨c, n, a⟩ := cr
        by_cases hc : c ≠ cn ∨ n ≠ k ∨ a = none
        · simp [crUpdate, hc]
        · push_neg at hc
          simp [crUpdate, hc.1, hc.2.1, hc.2.2]
  · rw [crUpdate_of_not_cr cn k tv ⟨ty, crOpt, ext⟩ hty]
    exact crUpdate_of_not_cr cn k tv ⟨ty, crOpt, ext⟩ hty

/-- The External pass is idempotent on each metric. -/
theorem extUpdate_idem (nm : String) (tv : Int) (m : MetricSpec) :
    extUpdate nm tv (extUpdate nm tv m) = extUpdate nm tv m := by
  obtain ⟨ty, crOpt, ext⟩ := m
  by_cases hty : ty = .external
  · subst hty
    cases ext with
    | none => simp [extUpdate]
    | some e =>
        obtain ⟨en, ev⟩ := e
        by_cases hc : en ≠ nm
        · simp [extUpdate, hc]
        · push_neg at hc
          simp [extUpdate, hc]
  · rw [extUpdate_of_not_ext nm tv ⟨ty, crOpt, ext⟩ hty]
    exact extUpdate_of_not_ext nm tv ⟨ty, crOpt, ext⟩ hty

/-- A second rewrite pass over an already rewritten metric changes
nothing. -/
theorem elem_idem (cn : String) (k : ResourceName) (nm : String) (tv : Int)
    (m : MetricSpec) :
    extUpdate nm tv (crUpdate cn k tv (extUpdate nm tv (crUpdate cn k tv m)))
      = extUpdate nm tv (crUpdate cn k tv m) := by
  by_cases hty : m.type = .containerResource
  · have hx : extUpdate nm tv (crUpdate cn k tv m) = crUpdate cn k tv m := by
      refine extUpdate_of_not_ext nm tv _ ?_
      rw [crUpdate_type, hty]
      intro h
      exact MetricType.noConfusion h
    rw [hx, crUpdate_idem, hx]
  · rw [crUpdate_of_not_cr cn k tv m hty]
    by_cases hty2 : m.type = .external
    · have h3 : crUpdate cn k tv (extUpdate nm tv m) = extUpdate nm tv m := by
        refine crUpdate_of_not_cr cn k tv _ ?_
        rw [extUpdate_type]
        exact hty
      rw [h3, extUpdate_idem]
    · have h4 : extUpdate nm tv m = m := extUpdate_of_not_ext nm tv m hty2
      rw [h4, crUpdate_of_not_cr cn k tv m hty, h4]

/-- C9: the metric rewrite is idempotent: applying `updateHPATargetValue`
twice with the same container, resource kind and target produces exactly
the same HPA and the same error outcome as applying it once. -/
theorem claim_C9 (hpa : HPA) (cn : String) (k : ResourceName) (tv : Int) :
    updateHPATargetValue (updateHPATargetValue hpa cn k tv).1 cn k tv =
      updateHPATargetValue hpa cn k tv := by
  cases hx : externalMetricNameOf hpa cn k with
  | error e =>
      simp only [updateHPATargetValue_eq, hx]
      rw [externalMetricNameOf_congr
        { hpa with metrics := hpa.metrics.map (crUpdate cn k tv) } hpa cn k
        rfl, hx]
      simp only [List.map_map]
      congr 1
      · congr 1
        exact List.map_congr_left (fun a _ => crUpdate_idem cn k tv a)
  | ok nm =>
      simp only [updateHPATargetValue_eq, hx]
      rw [externalMetricNameOf_congr
        { hpa with metrics :=
            (hpa.metrics.map (crUpdate cn k tv)).map (extUpdate nm tv) }
          hpa cn k rfl, hx]
      simp only [List.map_map]
      congr 2
      exact List.map_congr_left (fun a _ => elem_idem cn k nm tv a)

/-- The ContainerResource pass skips any metric not matching the given
container and resource kind. -/
theorem crUpdate_of_no_match (cn : String) (k : ResourceName) (tv : Int)
    (m : MetricSpec) (h : isCRFor m cn k = false) : crUpdate cn k tv m = m := by
  obtain ⟨ty, crOpt, ext⟩ := m
  by_cases hty : ty = .containerResource
  · subst hty
    cases crOpt with
    | none => simp [crUpdate]
    | some cr =>
        obtain ⟨c, n, a⟩ := cr
        simp only [isCRFor] at h
        simp only [beq_self_eq_true, Bool.true_and, Bool.and_eq_false_iff,
          beq_eq_false_iff_ne] at h
        have hor : c ≠ cn ∨ n ≠ k ∨ a = none := by tauto
        simp [crUpdate, hor]
  · exact crUpdate_of_not_cr cn k tv ⟨ty, crOpt, ext⟩ hty

/-- The External pass skips any metric not bearing the computed name. -/
theorem extUpdate_of_no_match (nm : String) (tv : Int) (m : MetricSpec)
    (h : isExtNamed m nm = false) : extUpdate nm tv m = m := by
  obtain ⟨ty, crOpt, ext⟩ := m
  by_cases hty : ty = .external
  · subst hty
    cases ext with
    | none => simp [extUpdate]
    | some e =>
        obtain ⟨en, ev⟩ := e
        simp only [isExtNamed] at h
        simp only [beq_self_eq_true, Bool.true_and,
          beq_eq_false_iff_ne] at h
        simp [extUpdate, h]
  · exact extUpdate_of_not_ext nm tv ⟨ty, crOpt, ext⟩ hty

/-- A metric for one (container, kind) pair is not one for a different
pair. -/
theorem isCRFor_unique (m : MetricSpec) (cn1 : String) (k1 : ResourceName)
    (cn2 : String) (k2 : ResourceName) (h : isCRFor m cn1 k1 = true)
    (hne : cn1 ≠ cn2 ∨ k1 ≠ k2) : isCRFor m cn2 k2 = false := by
  obtain ⟨ty, crOpt, ext⟩ := m
  cases crOpt with
  | none => simp [isCRFor] at h
  | some cr =>
      obtain ⟨c, n, a⟩ := cr
      simp only [isCRFor, Bool.and_eq_true, beq_iff_eq] at h
      obtain ⟨hty, hc, hn⟩ := h
      simp only [isCRFor, hty, beq_self_eq_true, Bool.true_and,
        Bool.and_eq_false_iff, beq_eq_false_iff_ne]
      subst hc hn
      tauto

/-- A ContainerResource metric is not an External metric. -/
theorem isExtNamed_of_isCRFor (m : MetricSpec) (cn : String)
    (k : ResourceName) (nm : String) (h : isCRFor m cn k = true) :
    isExtNamed m nm = false := by
  obtain ⟨ty, crOpt, ext⟩ := m
  simp only [isCRFor, Bool.and_eq_true, beq_iff_eq] at h
  obtain ⟨hty, _⟩ := h
  subst hty
  simp [isExtNamed]

/-- An External metric is not a ContainerResource metric. -/
theorem isCRFor_of_isExtNamed (m : MetricSpec) (nm : String) (cn : String)
    (k : ResourceName) (h : isExtNamed m nm = true) :
    isCRFor m cn k = false := by
  obtain ⟨ty, crOpt, ext⟩ := m
  simp only [isExtNamed, Bool.and_eq_true, beq_iff_eq] at h
  obtain ⟨hty, _⟩ := h
  subst hty
  simp [isCRFor]

/-- An External metric carries one name, so it does not match a second,
different name. -/
theorem isExtNamed_unique (m : MetricSpec) (n1 n2 : String)
    (h : isExtNamed m n1 = true) (hne : n1 ≠ n2) :
    isExtNamed m n2 = false := by
  obtain ⟨ty, crOpt, ext⟩ := m
  cases ext with
  | none => simp [isExtNamed] at h
  | some e =>
      simp only [isExtNamed, Bool.and_eq_true, beq_iff_eq] at h
      obtain ⟨hty, hn⟩ := h
      simp only [isExtNamed, hty, beq_self_eq_true, Bool.true_and,
        beq_eq_false_iff_ne]
      rw [hn]
      exact hne

/-- C8: on an HPA carrying the two distinct bootstrapped naming-prefix
annotations, rewriting the target for (container=api, resource=cpu) leaves
every metric at its position unchanged unless it is the ContainerResource
metric for (api, cpu) or the External metric with the computed name; in
particular metrics for (worker, cpu) and (api, memory) — of either shape —
are untouched. -/
theorem claim_C8 (hpa : HPA) (tv : Int) (pc pm : String)
    (hc : hpa.annotations.lookup cpuPrefixKey = some pc)
    (_hm : hpa.annotations.lookup memoryPrefixKey = some pm)
    (hlen : pc.length ≠ pm.length) :
    (∀ (i : Nat) (m : MetricSpec), hpa.metrics[i]? = some m →
      isCRFor m "api" .cpu = false → isExtNamed m (pc ++ "api") = false →
      (updateHPATargetValue hpa "api" .cpu tv).1.metrics[i]? = some m)
    ∧ (∀ (i : Nat) (m : MetricSpec), hpa.metrics[i]? = some m →
      (isCRFor m "worker" .cpu = true ∨ isCRFor m "api" .memory = true ∨
       isExtNamed m (pc ++ "worker") = true ∨
       isExtNamed m (pm ++ "api") = true) →
      (updateHPATargetValue hpa "api" .cpu tv).1.metrics[i]? = some m) := by
  have hname : externalMetricNameOf hpa "api" .cpu = .ok (pc ++ "api") := by
    simp [externalMetricNameOf, getAnnotationValue, hc]
  have heq := updateHPATargetValue_eq hpa "api" .cpu tv
  rw [hname] at heq
  have main : ∀ (i : Nat) (m : MetricSpec), hpa.metrics[i]? = some m →
      isCRFor m "api" .cpu = false → isExtNamed m (pc ++ "api") = false →
      (updateHPATargetValue hpa "api" .cpu tv).1.metrics[i]? = some m := by
    intro i m hi hcr hext
    have h1 : crUpdate "api" ResourceName.cpu tv m = m :=
      crUpdate_of_no_match _ _ _ _ hcr
    have h2 : extUpdate (pc ++ "api") tv m = m :=
      extUpdate_of_no_match _ _ _ hext
    simp only [heq, List.getElem?_map, hi, Option.map_some', h1, h2]
  refine ⟨main, ?_⟩
  intro i m hi hdisj
  have hwa : ("worker" : String) ≠ "api" := by decide
  have hkm : (ResourceName.memory) ≠ .cpu := by decide
  have hw_api : pc ++ "worker" ≠ pc ++ "api" := by
    intro hcontra
    have := congrArg String.length hcontra
    simp [String.length_append] at this
    exact absurd this (by decide)
  have hm_api : pm ++ "api" ≠ pc ++ "api" := by
    intro hcontra
    have := congrArg String.length hcontra
    simp [String.length_append] at this
    exact hlen this.symm
  rcases hdisj with hd | hd | hd | hd
  · exact main i m hi (isCRFor_unique m "worker" .cpu "api" .cpu hd
      (Or.inl hwa)) (isExtNamed_of_isCRFor m "worker" .cpu _ hd)
  · exact main i m hi (isCRFor_unique m "api" .memory "api" .cpu hd
      (Or.inr hkm)) (isExtNamed_of_isCRFor m "api" .memory _ hd)
  · exact main i m hi (isCRFor_of_isExtNamed m _ "api" .cpu hd)
      (isExtNamed_unique m _ _ hd hw_api)
  · exact main i m hi (isCRFor_of_isExtNamed m _ "api" .cpu hd)
      (isExtNamed_unique m _ _ hd hm_api)

/-- C8 witness: rewriting (api, cpu) on the concrete frame HPA keeps the
(worker, cpu) and (api, memory) metrics of both shapes at their positions
unchanged. -/
theorem claim_C8_witness :
    (updateHPATargetValue frameHPA "api" .cpu 55).1.metrics[0]? =
      some (containerMetricSpec "worker" .cpu 40) ∧
    (updateHPATargetValue frameHPA "api" .cpu 55).1.metrics[1]? =
      some (containerMetricSpec "api" .memory 41) ∧
    (updateHPATargetValue frameHPA "api" .cpu 55).1.metrics[2]? =
      some (externalMetricSpec ("c-" ++ "worker") 42) ∧
    (updateHPATargetValue frameHPA "api" .cpu 55).1.metrics[3]? =
      some (externalMetricSpec ("mem-" ++ "api") 43) := by
  have h8 := claim_C8 frameHPA 55 "c-" "mem-" (by decide) (by decide)
    (by decide)
  exact ⟨h8.2 0 _ (by decide) (Or.inl (by decide)),
         h8.2 1 _ (by decide) (Or.inr (Or.inl (by decide))),
         h8.2 2 _ (by decide) (Or.inr (Or.inr (Or.inl (by decide)))),
         h8.2 3 _ (by decide) (Or.inr (Or.inr (Or.inr (by decide))))⟩

/-- The cpu naming-prefix annotation written at bootstrap. -/
theorem lookup_cpu_initial (t : Tortoise) (r : Int) :
    (initialHPA t r).annotations.lookup cpuPrefixKey =
      some ("datadogmetric@" ++ t.namespaceName ++ ":" ++ t.deploymentName ++
        "-cpu-") := by
  have hne : (cpuPrefixKey == memoryPrefixKey) = false := by decide
  simp [initialHPA, List.lookup, hne]

/-- The memory naming-prefix annotation written at bootstrap. -/
theorem lookup_memory_initial (t : Tortoise) (r : Int) :
    (initialHPA t r).annotations.lookup memoryPrefixKey =
      some ("datadogmetric@" ++ t.namespaceName ++ ":" ++ t.deploymentName ++
        "-memory-") := by
  simp [initialHPA, List.lookup]

/-- On the bootstrap skeleton, a successful external-metric name is the
bootstrapped prefix for the resource kind followed by the container name. -/
theorem extname_initial (t : Tortoise) (r : Int) (cn : String)
    (k : ResourceName) (nm : String)
    (h : externalMetricNameOf (initialHPA t r) cn k = .ok nm) :
    nm = bootstrappedPrefixOf t k ++ cn := by
  cases k with
  | cpu =>
      simp only [externalMetricNameOf, getAnnotationValue,
        lookup_cpu_initial, Option.getD_some, Except.ok.injEq] at h
      rw [← h]
      rfl
  | memory =>
      simp only [externalMetricNameOf, getAnnotationValue,
        lookup_memory_initial, Option.getD_some, Except.ok.injEq] at h
      rw [← h]
      rfl
  | other s => simp [externalMetricNameOf] at h

/-- Membership in one container's built metric list. -/
theorem bcm_ok_iff (hpa : HPA) (cn : String) :
    ∀ (l : List (ResourceName × AutoscalingType)) (ms : List MetricSpec),
      buildContainerMetrics hpa cn l = .ok ms →
      ∀ m, m ∈ ms ↔ ∃ rp ∈ l, ∃ nm,
        externalMetricNameOf hpa cn rp.1 = .ok nm ∧
        m = externalMetricSpec nm (if rp.2 = .Horizontal then 50 else 90) := by
  intro l
  induction l with
  | nil =>
      intro ms h m
      simp only [buildContainerMetrics, Except.ok.injEq] at h
      subst h
      simp
  | cons rp rest ih =>
      intro ms h m
      obtain ⟨r, p⟩ := rp
      simp only [buildContainerMetrics] at h
      rcases hn : externalMetricNameOf hpa cn r with e | nm0
      · rw [hn] at h; simp at h
      · rw [hn] at h
        rcases hrest : buildContainerMetrics hpa cn rest with e | ms0
        · rw [hrest] at h; simp at h
        · rw [hrest] at h
          simp only [Except.ok.injEq] at h
          subst h
          constructor
          · intro hm
            rcases List.mem_cons.mp hm with hm | hm
            · exact ⟨(r, p), by simp, nm0, hn, by
                simp [externalMetricSpec, hm]⟩
            · obtain ⟨rp2, hrp2, nm2, hnm2, hm2⟩ := (ih ms0 hrest m).mp hm
              exact ⟨rp2, by simp [hrp2], nm2, hnm2, hm2⟩
          · rintro ⟨rp2, hrp2, nm2, hnm2, hm2⟩
            rcases List.mem_cons.mp hrp2 with hrp2 | hrp2
            · subst hrp2
              rw [hn] at hnm2
              injection hnm2 with hnm2
              subst hnm2
              subst hm2
              exact List.mem_cons_self _ _
            · exact List.mem_cons_of_mem _
                ((ih ms0 hrest m).mpr ⟨rp2, hrp2, nm2, hnm2, hm2⟩)

/-- Membership in the whole built metric list. -/
theorem bam_ok_iff (hpa : HPA) :
    ∀ (policy : List ContainerResourcePolicy) (ms : List MetricSpec),
      buildAllMetrics hpa policy = .ok ms →
      ∀ m, m ∈ ms ↔ ∃ cp ∈ policy, ∃ rp ∈ cp.autoscalingPolicy, ∃ nm,
        externalMetricNameOf hpa cp.containerName rp.1 = .ok nm ∧
        m = externalMetricSpec nm (if rp.2 = .Horizontal then 50 else 90) := by
  intro policy
  induction policy with
  | nil =>
      intro ms h m
      simp only [buildAllMetrics, Except.ok.injEq] at h
      subst h
      simp
  | cons cp rest ih =>
      intro ms h m
      simp only [buildAllMetrics] at h
      rcases h1 : buildContainerMetrics hpa cp.containerName
          cp.autoscalingPolicy with e | m1
      · rw [h1] at h; simp at h
      · rw [h1] at h
        rcases h2 : buildAllMetrics hpa rest with e | m2
        · rw [h2] at h; simp at h
        · rw [h2] at h
          simp only [Except.ok.injEq] at h
          subst h
          constructor
          · intro hm
            rcases List.mem_append.mp hm with hm | hm
            · obtain ⟨rp2, hrp2, nm2, hnm2, hm2⟩ :=
                (bcm_ok_iff hpa cp.containerName cp.autoscalingPolicy m1 h1
                  m).mp hm
              exact ⟨cp, by simp, rp2, hrp2, nm2, hnm2, hm2⟩
            · obtain ⟨cp2, hcp2, rp2, hrp2, nm2, hnm2, hm2⟩ :=
                (ih m2 h2 m).mp hm
              exact ⟨cp2, by simp [hcp2], rp2, hrp2, nm2, hnm2, hm2⟩
          · rintro ⟨cp2, hcp2, rp2, hrp2, nm2, hnm2, hm2⟩
            rcases List.mem_cons.mp hcp2 with hcp2 | hcp2
            · subst hcp2
              exact List.mem_append.mpr (Or.inl
                ((bcm_ok_iff hpa cp2.containerName cp2.autoscalingPolicy m1 h1
                  m).mpr ⟨rp2, hrp2, nm2, hnm2, hm2⟩))
            · exact List.mem_append.mpr (Or.inr
                ((ih m2 h2 m).mpr ⟨cp2, hcp2, rp2, hrp2, nm2, hnm2, hm2⟩))

/-- A successful per-container build names every pair it visits. -/
theorem bcm_all_ok (hpa : HPA) (cn : String) :
    ∀ (l : List (ResourceName × AutoscalingType)) (ms : List MetricSpec),
      buildContainerMetrics hpa cn l = .ok ms →
      ∀ rp ∈ l, ∃ nm, externalMetricNameOf hpa cn rp.1 = .ok nm := by
  intro l
  induction l with
  | nil => intro ms h rp hrp; simp at hrp
  | cons rp0 rest ih =>
      intro ms h rp hrp
      obtain ⟨r, p⟩ := rp0
      simp only [buildContainerMetrics] at h
      rcases hn : externalMetricNameOf hpa cn r with e | nm0
      · rw [hn] at h; simp at h
      · rw [hn] at h
        rcases hrest : buildContainerMetrics hpa cn rest with e | ms0
        · rw [hrest] at h; simp at h
        · rcases List.mem_cons.mp hrp with hrp | hrp
          · subst hrp; exact ⟨nm0, hn⟩
          · exact ih ms0 hrest rp hrp

/-- A successful whole build names every (container, kind) pair of the
policy. -/
theorem bam_all_ok (hpa : HPA) :
    ∀ (policy : List ContainerResourcePolicy) (ms : List MetricSpec),
      buildAllMetrics hpa policy = .ok ms →
      ∀ cp ∈ policy, ∀ rp ∈ cp.autoscalingPolicy, ∃ nm,
        externalMetricNameOf hpa cp.containerName rp.1 = .ok nm := by
  intro policy
  induction policy with
  | nil => intro ms h cp hcp; simp at hcp
  | cons cp0 rest ih =>
      intro ms h cp hcp rp hrp
      simp only [buildAllMetrics] at h
      rcases h1 : buildContainerMetrics hpa cp0.containerName
          cp0.autoscalingPolicy with e | m1
      · rw [h1] at h; simp at h
      · rw [h1] at h
        rcases h2 : buildAllMetrics hpa rest with e | m2
        · rw [h2] at h; simp at h
        · rcases List.mem_cons.mp hcp with hcp | hcp
          · subst hcp
            exact bcm_all_ok hpa cp.containerName cp.autoscalingPolicy m1 h1
              rp hrp
          · exact ih m2 h2 cp hcp rp hrp

/-- C7: a successfully created autoscaler contains exactly one
ExternalMetric per (container, resourceKind) pair of the per-container
autoscaling policy — named by that pair's bootstrapped prefix and
container — whose target value is 50 when the pair's mode is purely
horizontal and 90 otherwise, and no other metric. -/
theorem claim_C7 (t : Tortoise) (statusReplicas : Int) (hpa : HPA)
    (hok : createHPAOnTortoise t statusReplicas = .ok hpa) :
    ∀ ms, ms ∈ hpa.metrics ↔
      ∃ cp ∈ t.resourcePolicy, ∃ rp ∈ cp.autoscalingPolicy,
        ms = externalMetricSpec
          (bootstrappedPrefixOf t rp.1 ++ cp.containerName)
          (if rp.2 = .Horizontal then 50 else 90) := by
  intro ms
  simp only [createHPAOnTortoise] at hok
  rcases hb : buildAllMetrics (initialHPA t statusReplicas) t.resourcePolicy
    with e | m
  · rw [hb] at hok; simp at hok
  · rw [hb] at hok
    simp only [Except.ok.injEq] at hok
    subst hok
    constructor
    · intro hm
      obtain ⟨cp, hcp, rp, hrp, nm, hnm, hmeq⟩ :=
        (bam_ok_iff (initialHPA t statusReplicas) t.resourcePolicy m hb
          ms).mp hm
      refine ⟨cp, hcp, rp, hrp, ?_⟩
      rw [hmeq, extname_initial t statusReplicas cp.containerName rp.1 nm hnm]
    · rintro ⟨cp, hcp, rp, hrp, hmeq⟩
      obtain ⟨nm, hnm⟩ := bam_all_ok (initialHPA t statusReplicas)
        t.resourcePolicy m hb cp hcp rp hrp
      refine (bam_ok_iff (initialHPA t statusReplicas) t.resourcePolicy m hb
        ms).mpr ⟨cp, hcp, rp, hrp, nm, hnm, ?_⟩
      rw [hmeq, extname_initial t statusReplicas cp.containerName rp.1 nm hnm]

/-- The concrete bootstrap scenario: creating the HPA for the example
tortoise with 7 status replicas succeeds with minReplicas 4, maxReplicas 14
and one external metric per policy pair. -/
theorem bootstrapHPA_ok :
    createHPAOnTortoise bootstrapTortoise 7 = .ok bootstrapHPA := by
  have hceil : ⌈(7 : Rat) / 2⌉ = (4:Int) := by
    rw [Int.ceil_eq_iff]
    norm_num
  have hne : (cpuPrefixKey == memoryPrefixKey) = false := by decide
  simp [createHPAOnTortoise, buildAllMetrics, buildContainerMetrics,
    externalMetricNameOf, getAnnotationValue, initialHPA, bootstrapTortoise,
    bootstrapHPA, externalMetricSpec, List.lookup, hceil, hne]

/-- C7 witness: the horizontal (api, cpu) pair of the concrete bootstrap
scenario yields its external metric with target 50. -/
theorem claim_C7_witness :
    externalMetricSpec "datadogmetric@ns:d-cpu-api" 50 ∈
      bootstrapHPA.metrics :=
  (claim_C7 bootstrapTortoise 7 bootstrapHPA bootstrapHPA_ok
      (externalMetricSpec "datadogmetric@ns:d-cpu-api" 50)).mpr
    ⟨{ containerName := "api",
       autoscalingPolicy := [(.cpu, .Horizontal), (.memory, .Vertical)] },
     by decide, (.cpu, .Horizontal), by decide, by decide⟩

/-- Core decay inequality: if truncating currentMin times a factor in
(0,1) still leaves at least 1, the truncated value is strictly below
currentMin. -/
theorem trunc_lt_self (f : Rat) (hf0 : 0 < f) (hf1 : f < 1) (c : Int)
    (h1 : 1 ≤ truncTowardZero ((c : Rat) * f)) :
    truncTowardZero ((c : Rat) * f) < c := by
  by_cases hnn : 0 ≤ (c : Rat) * f
  · rw [truncTowardZero, if_pos hnn] at h1 ⊢
    have hq1 : (1 : Rat) ≤ (c : Rat) * f := by
      exact_mod_cast Int.le_floor.mp h1
    have hcpos : (0 : Rat) < (c : Rat) := by
      by_contra hc
      push_neg at hc
      have hle : (c : Rat) * f ≤ 0 :=
        mul_nonpos_iff.mpr (Or.inr ⟨hc, hf0.le⟩)
      linarith
    have hlt : (c : Rat) * f < (c : Rat) := by
      calc (c : Rat) * f < (c : Rat) * 1 :=
            mul_lt_mul_of_pos_left hf1 hcpos
        _ = (c : Rat) := mul_one _
    exact Int.floor_lt.mpr hlt
  · rw [truncTowardZero, if_neg hnn] at h1
    push_neg at hnn
    have hce : ⌈(c : Rat) * f⌉ ≤ 0 := by
      rw [Int.ceil_le]
      exact_mod_cast hnn.le
    omega

/-- A step that lands in BackToNormal came from BackToNormal, did not
cross, and produced exactly the truncated reduced minimum. -/
theorem minPlanStep_btn_inv (f : Rat) (ideal maxRec : Int)
    (s : Int × TortoisePhase)
    (h : (minPlanStep f ideal maxRec s).2 = .BackToNormal) :
    s.2 = .BackToNormal ∧ ideal ≤ (minPlanStep f ideal maxRec s).1 ∧
      (minPlanStep f ideal maxRec s).1 =
        truncTowardZero ((s.1 : Rat) * f) := by
  rcases s with ⟨c, p⟩
  cases p with
  | Working => simp [minPlanStep] at h
  | Emergency => simp [minPlanStep] at h
  | BackToNormal =>
      by_cases hcross : ideal > truncTowardZero ((c : Rat) * f)
      · exfalso
        simp [minPlanStep, backToNormalMinPlan, hcross] at h
      · push_neg at hcross
        simp [minPlanStep, backToNormalMinPlan, if_neg (not_lt.mpr hcross)]
        exact hcross

/-- A non-Emergency step that lands in Working reports exactly the ideal
minimum. -/
theorem minPlanStep_working_val (f : Rat) (ideal maxRec : Int)
    (s : Int × TortoisePhase) (hne : s.2 ≠ .Emergency)
    (h : (minPlanStep f ideal maxRec s).2 = .Working) :
    (minPlanStep f ideal maxRec s).1 = ideal := by
  rcases s with ⟨c, p⟩
  cases p with
  | Emergency => exact absurd rfl hne
  | Working => rfl
  | BackToNormal =>
      by_cases hcross : ideal > truncTowardZero ((c : Rat) * f)
      · simp only [minPlanStep, backToNormalMinPlan, if_pos hcross]
      · exfalso
        simp [minPlanStep, backToNormalMinPlan, hcross] at h

/-- Starting from BackToNormal, the iteration never enters Emergency. -/
theorem minPlanIter_no_emergency (f : Rat) (ideal maxRec c0 : Int) :
    ∀ n, (minPlanIter f ideal maxRec (c0, .BackToNormal) n).2 ≠
      .Emergency := by
  intro n
  induction n with
  | zero => simp [minPlanIter]
  | succ n ih =>
      show (minPlanStep f ideal maxRec
        (minPlanIter f ideal maxRec (c0, .BackToNormal) n)).2 ≠ .Emergency
      rcases hs : minPlanIter f ideal maxRec (c0, .BackToNormal) n
        with ⟨c, p⟩
      rw [hs] at ih
      cases p with
      | Emergency => exact absurd rfl ih
      | Working => simp [minPlanStep]
      | BackToNormal =>
          simp only [minPlanStep, backToNormalMinPlan]
          split_ifs <;> simp

/-- C2: one reconciliation pass of the source function computes exactly
the plan step on (minReplicas, phase); iterating that step from
BackToNormal with a reduction factor in (0,1) and a fixed idealMin at
least 1 is monotonically non-increasing while the phase stays
BackToNormal, reaches Working within currentMin + 1 passes, and from the
first Working pass on the reported minimum never drops below idealMin. -/
theorem claim_C2 (f : Rat) (idealMin maxRec c0 : Int)
    (hf0 : 0 < f) (hf1 : f < 1) (hi : 1 ≤ idealMin) :
    (∀ (cl : Client) (stored : HPA) (t : Tortoise) (now : Time)
        (hpa0 hpaRes : HPA) (tRes : Tortoise) (mx ideal2 : Int),
      applyTargetUtilizations stored t.targetUtilizations = .ok hpa0 →
      getReplicasRecommendation t.maxReplicasRecs now = .ok mx →
      getReplicasRecommendation t.minReplicasRecs now = .ok ideal2 →
      updateHPAFromTortoiseRecommendation cl stored t now =
        .ok (hpaRes, tRes) →
      (hpaRes.minReplicas, tRes.phase) =
        minPlanStep cl.replicaReductionFactor ideal2 mx
          (stored.minReplicas, t.phase))
    ∧ (∀ n, (minPlanIter f idealMin maxRec (c0, .BackToNormal) (n+1)).2 =
          .BackToNormal →
        (minPlanIter f idealMin maxRec (c0, .BackToNormal) (n+1)).1 ≤
          (minPlanIter f idealMin maxRec (c0, .BackToNormal) n).1)
    ∧ (∃ N ≤ c0.toNat + 1,
        (minPlanIter f idealMin maxRec (c0, .BackToNormal) N).2 = .Working)
    ∧ (∀ n m, n ≤ m →
        (minPlanIter f idealMin maxRec (c0, .BackToNormal) n).2 = .Working →
        idealMin ≤ (minPlanIter f idealMin maxRec (c0, .BackToNormal) m).1 ∧
        (minPlanIter f idealMin maxRec (c0, .BackToNormal) m).2 =
          .Working) := by
  have hseq : ∀ n, minPlanIter f idealMin maxRec (c0, .BackToNormal) (n+1) =
      minPlanStep f idealMin maxRec
        (minPlanIter f idealMin maxRec (c0, .BackToNormal) n) :=
    fun n => rfl
  have facts : ∀ n,
      (minPlanIter f idealMin maxRec (c0, .BackToNormal) (n+1)).2 =
        .BackToNormal →
      (minPlanIter f idealMin maxRec (c0, .BackToNormal) n).2 =
        .BackToNormal ∧
      (minPlanIter f idealMin maxRec (c0, .BackToNormal) (n+1)).1 <
        (minPlanIter f idealMin maxRec (c0, .BackToNormal) n).1 ∧
      1 ≤ (minPlanIter f idealMin maxRec (c0, .BackToNormal) (n+1)).1 := by
    intro n h
    rw [hseq n] at h ⊢
    obtain ⟨hprev, hle, hval⟩ := minPlanStep_btn_inv f idealMin maxRec _ h
    have h1 : 1 ≤ (minPlanStep f idealMin maxRec
        (minPlanIter f idealMin maxRec (c0, .BackToNormal) n)).1 :=
      le_trans hi hle
    refine ⟨hprev, ?_, h1⟩
    rw [hval]
    exact trunc_lt_self f hf0 hf1 _ (by rw [← hval]; exact h1)
  have bound : ∀ n,
      (minPlanIter f idealMin maxRec (c0, .BackToNormal) (n+1)).2 =
        .BackToNormal →
      (minPlanIter f idealMin maxRec (c0, .BackToNormal) (n+1)).1 ≤
        c0 - ((n : Int) + 1) := by
    intro n
    induction n with
    | zero =>
        intro h
        obtain ⟨hprev, hlt, h1⟩ := facts 0 h
        have h0 : (minPlanIter f idealMin maxRec (c0, .BackToNormal) 0).1 =
          c0 := rfl
        simp only [Nat.zero_add] at hlt h1 ⊢
        push_cast
        omega
    | succ n ih =>
        intro h
        obtain ⟨hprev, hlt, h1⟩ := facts (n+1) h
        have hb := ih hprev
        push_cast at hb ⊢
        omega
  have wval : ∀ n,
      (minPlanIter f idealMin maxRec (c0, .BackToNormal) n).2 = .Working →
      (minPlanIter f idealMin maxRec (c0, .BackToNormal) n).1 =
        idealMin := by
    intro n
    induction n with
    | zero => intro h; simp [minPlanIter] at h
    | succ n ih =>
        intro h
        rw [hseq n] at h ⊢
        exact minPlanStep_working_val f idealMin maxRec _
          (minPlanIter_no_emergency f idealMin maxRec c0 n) h
  have wabs : ∀ n,
      (minPlanIter f idealMin maxRec (c0, .BackToNormal) n).2 = .Working →
      (minPlanIter f idealMin maxRec (c0, .BackToNormal) (n+1)).2 =
          .Working ∧
      (minPlanIter f idealMin maxRec (c0, .BackToNormal) (n+1)).1 =
          idealMin := by
    intro n h
    rw [hseq n]
    rcases hs : minPlanIter f idealMin maxRec (c0, .BackToNormal) n
      with ⟨c, p⟩
    rw [hs] at h
    cases p with
    | Working => exact ⟨rfl, rfl⟩
    | Emergency => exact absurd h (by simp)
    | BackToNormal => exact absurd h (by simp)
  refine ⟨?_, ?_, ?_, ?_⟩
  · intro cl stored t now hpa0 hpaRes tRes mx ideal2 happly hmax hmin hupd
    have hmin0 : hpa0.minReplicas = stored.minReplicas :=
      (applyTargetUtilizations_ok t.targetUtilizations stored hpa0 happly).1
    cases hph : t.phase with
    | Emergency =>
        simp only [updateHPAFromTortoiseRecommendation, happly, hmax,
          hph] at hupd
        simp only [Except.ok.injEq, Prod.mk.injEq] at hupd
        obtain ⟨h1, h2⟩ := hupd
        subst h1 h2
        simp [minPlanStep, hph]
    | Working =>
        simp only [updateHPAFromTortoiseRecommendation, happly, hmax, hph,
          hmin] at hupd
        simp only [Except.ok.injEq, Prod.mk.injEq] at hupd
        obtain ⟨h1, h2⟩ := hupd
        subst h1 h2
        simp [minPlanStep, hph]
    | BackToNormal =>
        simp only [updateHPAFromTortoiseRecommendation, happly, hmax, hph,
          hmin] at hupd
        rw [hmin0] at hupd
        split_ifs at hupd with hcross
        · simp only [Except.ok.injEq, Prod.mk.injEq] at hupd
          obtain ⟨h1, h2⟩ := hupd
          subst h1 h2
          simp [minPlanStep, backToNormalMinPlan, hcross, hph]
        · simp only [Except.ok.injEq, Prod.mk.injEq] at hupd
          obtain ⟨h1, h2⟩ := hupd
          subst h1 h2
          simp [minPlanStep, backToNormalMinPlan, hcross, hph]
  · intro n h
    exact le_of_lt (facts n h).2.1
  · by_cases hbtn : (minPlanIter f idealMin maxRec (c0, .BackToNormal)
        (c0.toNat + 1)).2 = .BackToNormal
    · exfalso
      have hb := bound c0.toNat hbtn
      have h1 := (facts c0.toNat hbtn).2.2
      have hc : c0 ≤ (c0.toNat : Int) := Int.self_le_toNat c0
      omega
    · have hne := minPlanIter_no_emergency f idealMin maxRec c0
        (c0.toNat + 1)
      refine ⟨c0.toNat + 1, le_refl _, ?_⟩
      cases h2 : (minPlanIter f idealMin maxRec (c0, .BackToNormal)
          (c0.toNat + 1)).2 with
      | Working => rfl
      | Emergency => exact absurd h2 hne
      | BackToNormal => exact absurd h2 hbtn
  · intro n m hnm hw
    induction hnm with
    | refl => exact ⟨le_of_eq (wval n hw).symm, hw⟩
    | step hm ih =>
        obtain ⟨_, hwm⟩ := ih
        obtain ⟨habs, hval⟩ := wabs _ hwm
        exact ⟨le_of_eq hval.symm, habs⟩



/-- C2 witness: with factor 1/2, idealMin 1 and initial minReplicas 4 the
iteration is in Working phase at pass 5 with minimum at least 1
(convergence via the crossing at pass 3). -/
theorem claim_C2_witness :
    1 ≤ (minPlanIter (1/2 : Rat) 1 5 ((4 : Int), .BackToNormal) 5).1 ∧
    (minPlanIter (1/2 : Rat) 1 5 ((4 : Int), .BackToNormal) 5).2 =
      .Working := by
  have s1 : minPlanIter (1/2 : Rat) 1 5 ((4 : Int), .BackToNormal) 1 =
      ((2 : Int), .BackToNormal) := by
    show minPlanStep (1/2 : Rat) 1 5
      (minPlanIter (1/2 : Rat) 1 5 ((4 : Int), .BackToNormal) 0) = _
    norm_num [minPlanIter, minPlanStep, backToNormalMinPlan, truncTowardZero]
  have s2 : minPlanIter (1/2 : Rat) 1 5 ((4 : Int), .BackToNormal) 2 =
      ((1 : Int), .BackToNormal) := by
    show minPlanStep (1/2 : Rat) 1 5
      (minPlanIter (1/2 : Rat) 1 5 ((4 : Int), .BackToNormal) 1) = _
    rw [s1]
    norm_num [minPlanStep, backToNormalMinPlan, truncTowardZero]
  have s3 : minPlanIter (1/2 : Rat) 1 5 ((4 : Int), .BackToNormal) 3 =
      ((1 : Int), .Working) := by
    show minPlanStep (1/2 : Rat) 1 5
      (minPlanIter (1/2 : Rat) 1 5 ((4 : Int), .BackToNormal) 2) = _
    rw [s2]
    norm_num [minPlanStep, backToNormalMinPlan, truncTowardZero]
  have hW : (minPlanIter (1/2 : Rat) 1 5 ((4 : Int), .BackToNormal) 3).2 =
      .Working := by rw [s3]
  exact (claim_C2 (1/2 : Rat) 1 5 4 (by norm_num) (by norm_num)
    (le_refl 1)).2.2.2 3 5 (by norm_num) hW

end TortoiseHPA
